import Mathlib

/-!
Verification of the Velox memory-arbitration and sort-buffer sources.

The definitions below are shallow embeddings of the functions in
velox/common/memory/MemoryArbitrator.cpp, velox/dwio/common/SortingWriter.cpp
and velox/exec/SortBuffer.cpp.  Machine integers (uint64_t) are modelled as
Nat; the places where the C++ code can fail a runtime VELOX_CHECK are
modelled with Option, none standing for the thrown exception.
-/

namespace Velox

/-- Statistics record of MemoryArbitrator::Stats: twelve monotonic
counter/duration fields plus two gauges (maxCapacityBytes, freeCapacityBytes). -/
structure ArbitratorStats where
  numRequests : Nat
  numSucceeded : Nat
  numAborted : Nat
  numFailures : Nat
  queueTimeUs : Nat
  arbitrationTimeUs : Nat
  numShrunkBytes : Nat
  numReclaimedBytes : Nat
  maxCapacityBytes : Nat
  freeCapacityBytes : Nat
  reclaimTimeUs : Nat
  numNonReclaimableAttempts : Nat
  numReserveRequest : Nat
  numReleaseRequest : Nat
deriving DecidableEq, Repr

/-- The twelve fields that Stats::operator< compares, in the order of the
UPDATE_COUNTER invocations; the two gauges are not among them. -/
def counterFields (s : ArbitratorStats) : List Nat :=
  [s.numRequests, s.numSucceeded, s.numAborted, s.numFailures,
   s.queueTimeUs, s.arbitrationTimeUs, s.numShrunkBytes, s.numReclaimedBytes,
   s.reclaimTimeUs, s.numNonReclaimableAttempts, s.numReserveRequest,
   s.numReleaseRequest]

/-- Pairs of corresponding counter fields of two Stats values. -/
def counterPairs (a b : ArbitratorStats) : List (Nat × Nat) :=
  (counterFields a).zip (counterFields b)

/-- Number of counter fields where the left Stats is strictly below the right
one (the ltCount accumulated by Stats::operator<). -/
def ltCount (a b : ArbitratorStats) : Nat :=
  (counterPairs a b).countP fun p => decide (p.1 < p.2)

/-- Number of counter fields where the left Stats is strictly above the right
one (the gtCount accumulated by Stats::operator<). -/
def gtCount (a b : ArbitratorStats) : Nat :=
  (counterPairs a b).countP fun p => decide (p.2 < p.1)

/-- Stats::operator< (MemoryArbitrator.cpp lines 386-420).  It counts the
strictly-smaller and strictly-greater counter fields, fails the VELOX_CHECK
(modelled by none) when both counts are positive, and otherwise returns
whether some field is strictly smaller. -/
def statsLt (a b : ArbitratorStats) : Option Bool :=
  if 0 < gtCount a b ∧ 0 < ltCount a b then none
  else some (decide (0 < ltCount a b))

/-- Stats::operator== (MemoryArbitrator.cpp lines 349-380): field-wise
equality of all fourteen fields, gauges included. -/
def statsEq (a b : ArbitratorStats) : Bool :=
  decide (a.numRequests = b.numRequests) &&
  decide (a.numSucceeded = b.numSucceeded) &&
  decide (a.numAborted = b.numAborted) &&
  decide (a.numFailures = b.numFailures) &&
  decide (a.queueTimeUs = b.queueTimeUs) &&
  decide (a.arbitrationTimeUs = b.arbitrationTimeUs) &&
  decide (a.numShrunkBytes = b.numShrunkBytes) &&
  decide (a.numReclaimedBytes = b.numReclaimedBytes) &&
  decide (a.maxCapacityBytes = b.maxCapacityBytes) &&
  decide (a.freeCapacityBytes = b.freeCapacityBytes) &&
  decide (a.reclaimTimeUs = b.reclaimTimeUs) &&
  decide (a.numNonReclaimableAttempts = b.numNonReclaimableAttempts) &&
  decide (a.numReserveRequest = b.numReserveRequest) &&
  decide (a.numReleaseRequest = b.numReleaseRequest)

/-- Stats::operator!=. -/
def statsNe (a b : ArbitratorStats) : Bool := !(statsEq a b)

/-- Stats::operator> (MemoryArbitrator.cpp lines 422-424): not-less and
not-equal; an exception raised by operator< propagates. -/
def statsGt (a b : ArbitratorStats) : Option Bool :=
  match statsLt a b with
  | none => none
  | some l => some (!l && statsNe a b)

/-- Setting only the two gauge fields of a Stats value. -/
def setGauges (s : ArbitratorStats) (maxCap freeCap : Nat) : ArbitratorStats :=
  { s with maxCapacityBytes := maxCap, freeCapacityBytes := freeCap }

lemma countP_zip_self_zero (f : Nat × Nat → Bool) (hf : ∀ x : Nat, f (x, x) = false) :
    ∀ l : List Nat, ((l.zip l).countP f) = 0 := by
  intro l
  induction l with
  | nil => simp
  | cons x xs ih => simp [List.countP_cons, hf, ih]

lemma ltCount_pos_iff (a b : ArbitratorStats) :
    0 < ltCount a b ↔ ∃ p ∈ counterPairs a b, p.1 < p.2 := by
  unfold ltCount
  rw [List.countP_pos_iff]
  simp

lemma gtCount_pos_iff (a b : ArbitratorStats) :
    0 < gtCount a b ↔ ∃ p ∈ counterPairs a b, p.2 < p.1 := by
  unfold gtCount
  rw [List.countP_pos_iff]
  simp

/-- C1 (amended): Stats::operator< succeeds with true exactly on the pairs
that are strictly less in at least one counter/duration field and not greater
in any; it fails its internal VELOX_CHECK (rather than returning false)
exactly on the incomparable pairs, where some counter is smaller and another
is greater; and the gauge fields do not participate in the comparison. -/
theorem stats_lt_partial_order_characterization (a b : ArbitratorStats) :
    (statsLt a b = some true ↔
      ((∃ p ∈ counterPairs a b, p.1 < p.2) ∧ ∀ p ∈ counterPairs a b, ¬ p.2 < p.1)) ∧
    (statsLt a b = none ↔
      ((∃ p ∈ counterPairs a b, p.1 < p.2) ∧ ∃ p ∈ counterPairs a b, p.2 < p.1)) ∧
    (∀ g1 g2 g3 g4 : Nat, statsLt (setGauges a g1 g2) (setGauges b g3 g4) = statsLt a b) := by
  have hgz : gtCount a b = 0 ↔ ∀ p ∈ counterPairs a b, ¬ p.2 < p.1 := by
    unfold gtCount
    rw [List.countP_eq_zero]
    simp
  refine ⟨?_, ?_, ?_⟩
  · unfold statsLt
    by_cases h : 0 < gtCount a b ∧ 0 < ltCount a b
    · simp only [if_pos h]
      constructor
      · intro hc; simp at hc
      · rintro ⟨-, hnone⟩
        exact absurd (hgz.mpr hnone) (by omega)
    · simp only [if_neg h]
      constructor
      · intro hc
        have hlt : 0 < ltCount a b := by
          have := Option.some.inj hc
          simpa using of_decide_eq_true this
        refine ⟨(ltCount_pos_iff a b).mp hlt, hgz.mp ?_⟩
        omega
      · rintro ⟨hex, hnone⟩
        have hlt : 0 < ltCount a b := (ltCount_pos_iff a b).mpr hex
        simp [hlt]
  · unfold statsLt
    by_cases h : 0 < gtCount a b ∧ 0 < ltCount a b
    · rw [if_pos h]
      exact iff_of_true rfl ⟨(ltCount_pos_iff a b).mp h.2, (gtCount_pos_iff a b).mp h.1⟩
    · simp only [if_neg h]
      constructor
      · intro hc; simp at hc
      · rintro ⟨hex1, hex2⟩
        exact absurd ⟨(gtCount_pos_iff a b).mpr hex2, (ltCount_pos_iff a b).mpr hex1⟩ h
  · intro g1 g2 g3 g4
    rfl

/-- First half of a concrete incomparable pair of Stats values. -/
def incompStatsA : ArbitratorStats :=
  { numRequests := 1, numSucceeded := 5, numAborted := 0, numFailures := 0,
    queueTimeUs := 0, arbitrationTimeUs := 0, numShrunkBytes := 0,
    numReclaimedBytes := 0, maxCapacityBytes := 0, freeCapacityBytes := 0,
    reclaimTimeUs := 0, numNonReclaimableAttempts := 0, numReserveRequest := 0,
    numReleaseRequest := 0 }

/-- Second half of a concrete incomparable pair of Stats values. -/
def incompStatsB : ArbitratorStats :=
  { numRequests := 2, numSucceeded := 3, numAborted := 0, numFailures := 0,
    queueTimeUs := 0, arbitrationTimeUs := 0, numShrunkBytes := 0,
    numReclaimedBytes := 0, maxCapacityBytes := 0, freeCapacityBytes := 0,
    reclaimTimeUs := 0, numNonReclaimableAttempts := 0, numReserveRequest := 0,
    numReleaseRequest := 0 }

/-- C1 counterexample: on an incomparable pair, with numRequests smaller and
numSucceeded greater, operator< fails its VELOX_CHECK instead of returning
false, refuting the claim that it returns false for every incomparable pair. -/
theorem stats_lt_incomparable_fails :
    incompStatsA.numRequests < incompStatsB.numRequests ∧
    incompStatsB.numSucceeded < incompStatsA.numSucceeded ∧
    statsLt incompStatsA incompStatsB = none ∧
    statsLt incompStatsA incompStatsB ≠ some false := by
  refine ⟨by decide, by decide, by decide, by decide⟩

/-- C9: when all counter/duration fields agree and a gauge field differs,
operator< succeeds with false, operator!= is true, and therefore both
a > b and b > a hold, so operator> is not the strict dual of operator<. -/
theorem stats_gt_not_strict_dual (a b : ArbitratorStats)
    (hcf : counterFields a = counterFields b)
    (hg : a.maxCapacityBytes ≠ b.maxCapacityBytes ∨
      a.freeCapacityBytes ≠ b.freeCapacityBytes) :
    statsLt a b = some false ∧ statsNe a b = true ∧
    statsGt a b = some true ∧ statsGt b a = some true := by
  have hpairs : counterPairs a b = (counterFields a).zip (counterFields a) := by
    unfold counterPairs; rw [hcf]
  have hpairs2 : counterPairs b a = (counterFields a).zip (counterFields a) := by
    unfold counterPairs; rw [hcf]
  have hltab : ltCount a b = 0 := by
    unfold ltCount; rw [hpairs]
    exact countP_zip_self_zero _ (fun x => by simp) _
  have hgtab : gtCount a b = 0 := by
    unfold gtCount; rw [hpairs]
    exact countP_zip_self_zero _ (fun x => by simp) _
  have hltba : ltCount b a = 0 := by
    unfold ltCount; rw [hpairs2]
    exact countP_zip_self_zero _ (fun x => by simp) _
  have hgtba : gtCount b a = 0 := by
    unfold gtCount; rw [hpairs2]
    exact countP_zip_self_zero _ (fun x => by simp) _
  have hlt1 : statsLt a b = some false := by
    unfold statsLt; simp [hltab, hgtab]
  have hlt2 : statsLt b a = some false := by
    unfold statsLt; simp [hltba, hgtba]
  have hne1 : statsNe a b = true := by
    unfold statsNe statsEq
    rcases hg with h | h <;> simp [h]
  have hne2 : statsNe b a = true := by
    unfold statsNe statsEq
    rcases hg with h | h
    · have h2 : b.maxCapacityBytes ≠ a.maxCapacityBytes := fun hx => h hx.symm
      simp [h2]
    · have h2 : b.freeCapacityBytes ≠ a.freeCapacityBytes := fun hx => h hx.symm
      simp [h2]
  refine ⟨hlt1, hne1, ?_, ?_⟩
  · unfold statsGt; rw [hlt1]; simp [hne1]
  · unfold statsGt; rw [hlt2]; simp [hne2]

/-- Stats value with all fields zero except a gauge. -/
def gaugeStatsA : ArbitratorStats :=
  { numRequests := 0, numSucceeded := 0, numAborted := 0, numFailures := 0,
    queueTimeUs := 0, arbitrationTimeUs := 0, numShrunkBytes := 0,
    numReclaimedBytes := 0, maxCapacityBytes := 1, freeCapacityBytes := 0,
    reclaimTimeUs := 0, numNonReclaimableAttempts := 0, numReserveRequest := 0,
    numReleaseRequest := 0 }

/-- Stats value equal to gaugeStatsA except in the maxCapacityBytes gauge. -/
def gaugeStatsB : ArbitratorStats :=
  { gaugeStatsA with maxCapacityBytes := 2 }

/-- Witness for C9 at a concrete pair differing only in maxCapacityBytes. -/
theorem stats_gt_not_strict_dual_witness :
    (counterFields gaugeStatsA = counterFields gaugeStatsB ∧
      (gaugeStatsA.maxCapacityBytes ≠ gaugeStatsB.maxCapacityBytes ∨
        gaugeStatsA.freeCapacityBytes ≠ gaugeStatsB.freeCapacityBytes)) ∧
    (statsLt gaugeStatsA gaugeStatsB = some false ∧
      statsNe gaugeStatsA gaugeStatsB = true ∧
      statsGt gaugeStatsA gaugeStatsB = some true ∧
      statsGt gaugeStatsB gaugeStatsA = some true) :=
  ⟨⟨by decide, by decide⟩,
    stats_gt_not_strict_dual gaugeStatsA gaugeStatsB (by decide) (by decide)⟩

/-! ### Default MemoryReclaimer (MemoryArbitrator.cpp lines 175-237) -/

/-- Kind of a memory pool: leaf pools account allocations, aggregate pools
only own children. -/
inductive PoolKind where
  | leaf
  | aggregate
deriving DecidableEq, Repr

/-- A live child pool as seen by the default reclaimer: its reserved bytes at
snapshot time, and the bytes its own reclaim frees for a given target. -/
structure ReclaimCandidate where
  reservedBytes : Nat
  reclaimFn : Nat → Nat

/-- Comparator used to sort candidates: descending by reserved bytes. -/
def candOrder (a b : ReclaimCandidate) : Prop :=
  b.reservedBytes ≤ a.reservedBytes

instance : DecidableRel candOrder := fun a b =>
  inferInstanceAs (Decidable (b.reservedBytes ≤ a.reservedBytes))

instance : IsTotal ReclaimCandidate candOrder :=
  ⟨fun a b => Nat.le_total b.reservedBytes a.reservedBytes⟩

instance : IsTrans ReclaimCandidate candOrder :=
  ⟨fun _ _ _ hab hbc => Nat.le_trans hbc hab⟩

/-- Sorting of the candidate vector descending by reserved bytes
(the std sort call in MemoryReclaimer::reclaim). -/
def sortCandidatesDesc (cs : List ReclaimCandidate) : List ReclaimCandidate :=
  List.insertionSort candOrder cs

/-- The reclaim loop of MemoryReclaimer::reclaim (lines 225-235): reclaim from
each candidate in order; when the target is nonzero, stop as soon as one call
frees at least the remaining target, otherwise decrement the remaining target
and continue. -/
def reclaimLoop : List ReclaimCandidate → Nat → Nat
  | [], _ => 0
  | c :: cs, targetBytes =>
    let bytes := c.reclaimFn targetBytes
    if targetBytes ≠ 0 then
      if targetBytes ≤ bytes then bytes
      else bytes + reclaimLoop cs (targetBytes - bytes)
    else
      bytes + reclaimLoop cs 0

/-- MemoryReclaimer::reclaim (lines 193-237): zero for a leaf pool; for a
non-leaf pool, reclaim from the live children sorted descending by their
reserved bytes. -/
def memoryReclaimerReclaim
    (kind : PoolKind) (children : List ReclaimCandidate) (targetBytes : Nat) : Nat :=
  match kind with
  | .leaf => 0
  | .aggregate => reclaimLoop (sortCandidatesDesc children) targetBytes

/-- Stated from the claim: walk the candidates in order, invoking each
candidate reclaim with the still-missing part of the target, and stop as soon
as the cumulative freed bytes reach the target. -/
def specReclaimWalk (origTarget : Nat) : List ReclaimCandidate → Nat → Nat
  | [], acc => acc
  | c :: cs, acc =>
    let freed := c.reclaimFn (origTarget - acc)
    if origTarget ≤ acc + freed then acc + freed
    else specReclaimWalk origTarget cs (acc + freed)

lemma reclaimLoop_zero_target (cs : List ReclaimCandidate) :
    reclaimLoop cs 0 = (cs.map fun c => c.reclaimFn 0).sum := by
  induction cs with
  | nil => rfl
  | cons c cs ih => simp [reclaimLoop, ih]

lemma reclaimLoop_eq_specWalk (cs : List ReclaimCandidate) :
    ∀ t acc : Nat, acc < t →
      acc + reclaimLoop cs (t - acc) = specReclaimWalk t cs acc := by
  induction cs with
  | nil => intro t acc _; simp [reclaimLoop, specReclaimWalk]
  | cons c cs ih =>
    intro t acc hacc
    have htz : t - acc ≠ 0 := by omega
    simp only [reclaimLoop, specReclaimWalk, if_pos htz]
    by_cases hstop : t - acc ≤ c.reclaimFn (t - acc)
    · rw [if_pos hstop, if_pos (by omega)]
    · rw [if_neg hstop, if_neg (by omega)]
      have hrec := ih t (acc + c.reclaimFn (t - acc)) (by omega)
      rw [Nat.sub_sub, ← hrec]
      omega

/-- C3: the default reclaim returns 0 on a leaf pool; on a non-leaf pool it
sorts the live children descending by reserved bytes (a permutation of the
children, pairwise non-increasing), with target 0 it reclaims from every
child and returns the total freed bytes, and with a positive target it walks
the sorted children in order, stopping as soon as the cumulative freed bytes
reach the target, returning the total. -/
theorem memory_reclaimer_reclaim_spec
    (children : List ReclaimCandidate) (targetBytes : Nat) (ht : 0 < targetBytes) :
    memoryReclaimerReclaim PoolKind.leaf children targetBytes = 0 ∧
    (sortCandidatesDesc children).Perm children ∧
    (sortCandidatesDesc children).Sorted candOrder ∧
    memoryReclaimerReclaim PoolKind.aggregate children 0 =
      ((sortCandidatesDesc children).map fun c => c.reclaimFn 0).sum ∧
    memoryReclaimerReclaim PoolKind.aggregate children targetBytes =
      specReclaimWalk targetBytes (sortCandidatesDesc children) 0 := by
  refine ⟨rfl, List.perm_insertionSort candOrder children,
    List.sorted_insertionSort candOrder children,
    reclaimLoop_zero_target (sortCandidatesDesc children), ?_⟩
  have h := reclaimLoop_eq_specWalk (sortCandidatesDesc children) targetBytes 0 ht
  simpa using h

/-- A concrete candidate list for the C3 witness. -/
def reclaimWitnessChildren : List ReclaimCandidate :=
  [⟨5, fun _ => 3⟩, ⟨9, fun t => t⟩, ⟨7, fun _ => 0⟩]

/-- Witness for C3 at a concrete candidate list and target 4. -/
theorem memory_reclaimer_reclaim_spec_witness :
    0 < 4 ∧
    (memoryReclaimerReclaim PoolKind.leaf reclaimWitnessChildren 4 = 0 ∧
      (sortCandidatesDesc reclaimWitnessChildren).Perm reclaimWitnessChildren ∧
      (sortCandidatesDesc reclaimWitnessChildren).Sorted candOrder ∧
      memoryReclaimerReclaim PoolKind.aggregate reclaimWitnessChildren 0 =
        ((sortCandidatesDesc reclaimWitnessChildren).map fun c => c.reclaimFn 0).sum ∧
      memoryReclaimerReclaim PoolKind.aggregate reclaimWitnessChildren 4 =
        specReclaimWalk 4 (sortCandidatesDesc reclaimWitnessChildren) 0) :=
  ⟨by decide, memory_reclaimer_reclaim_spec reclaimWitnessChildren 4 (by decide)⟩

/-- MemoryReclaimer::reclaimableBytes (lines 175-191): a leaf pool reports
(false, 0); a non-leaf pool folds over its children, or-ing the per-child
reclaimable flags and summing the per-child reclaimable bytes.  Each child is
given as its (reclaimable flag, reclaimable bytes) report. -/
def memoryReclaimerReclaimableBytes
    (kind : PoolKind) (children : List (Bool × Nat)) : Bool × Nat :=
  match kind with
  | .leaf => (false, 0)
  | .aggregate =>
    children.foldl (fun acc c => (acc.1 || c.1, acc.2 + c.2)) (false, 0)

lemma reclaimableBytes_foldl (children : List (Bool × Nat)) :
    ∀ b n, children.foldl (fun acc c => (acc.1 || c.1, acc.2 + c.2)) (b, n) =
      (b || children.any Prod.fst, n + (children.map Prod.snd).sum) := by
  induction children with
  | nil => intro b n; simp
  | cons c cs ih =>
    intro b n
    simp only [List.foldl_cons, List.any_cons, List.map_cons, List.sum_cons, ih]
    rw [Bool.or_assoc, Nat.add_assoc]

/-- C7: the default reclaimableBytes reports (false, 0) for a leaf pool and,
for a non-leaf pool, the logical OR of the child flags together with the sum
of the child byte counts; and assuming every child report satisfies
non-reclaimable-implies-zero-bytes, the result satisfies the same implication,
so the internal VELOX_CHECK of the function cannot fail. -/
theorem memory_reclaimer_reclaimable_bytes_spec
    (kind : PoolKind) (children : List (Bool × Nat))
    (hchild : ∀ c ∈ children, c.1 = false → c.2 = 0) :
    memoryReclaimerReclaimableBytes PoolKind.leaf children = (false, 0) ∧
    memoryReclaimerReclaimableBytes PoolKind.aggregate children =
      (children.any Prod.fst, (children.map Prod.snd).sum) ∧
    ((memoryReclaimerReclaimableBytes kind children).1 = false →
      (memoryReclaimerReclaimableBytes kind children).2 = 0) := by
  have hagg : memoryReclaimerReclaimableBytes PoolKind.aggregate children =
      (children.any Prod.fst, (children.map Prod.snd).sum) := by
    unfold memoryReclaimerReclaimableBytes
    rw [reclaimableBytes_foldl children false 0]
    simp
  refine ⟨rfl, hagg, ?_⟩
  cases kind with
  | leaf => intro _; rfl
  | aggregate =>
    rw [hagg]
    intro hflag
    simp only at hflag ⊢
    have hall : ∀ c ∈ children, c.1 = false := by
      intro c hc
      by_contra hne
      have : children.any Prod.fst = true :=
        List.any_eq_true.mpr ⟨c, hc, by revert hne; cases c.1 <;> simp⟩
      rw [this] at hflag
      cases hflag
    have hzero : ∀ x ∈ children.map Prod.snd, x = 0 := by
      intro x hx
      rcases List.mem_map.mp hx with ⟨c, hc, hcx⟩
      rw [← hcx]
      exact hchild c hc (hall c hc)
    calc (children.map Prod.snd).sum
        = (children.map Prod.snd).length • 0 := List.sum_eq_card_nsmul _ 0 hzero
      _ = 0 := by simp

/-- A concrete child report list for the C7 witness. -/
def reclaimableWitnessChildren : List (Bool × Nat) :=
  [(true, 8), (false, 0), (true, 3)]

/-- Witness for C7 at a concrete child report list. -/
theorem memory_reclaimer_reclaimable_bytes_spec_witness :
    (∀ c ∈ reclaimableWitnessChildren, c.1 = false → c.2 = 0) ∧
    (memoryReclaimerReclaimableBytes PoolKind.leaf reclaimableWitnessChildren = (false, 0) ∧
      memoryReclaimerReclaimableBytes PoolKind.aggregate reclaimableWitnessChildren =
        (reclaimableWitnessChildren.any Prod.fst,
          (reclaimableWitnessChildren.map Prod.snd).sum) ∧
      ((memoryReclaimerReclaimableBytes PoolKind.aggregate reclaimableWitnessChildren).1 = false →
        (memoryReclaimerReclaimableBytes PoolKind.aggregate reclaimableWitnessChildren).2 = 0)) :=
  ⟨by decide,
    memory_reclaimer_reclaimable_bytes_spec PoolKind.aggregate
      reclaimableWitnessChildren (by decide)⟩

/-! ### Noop arbitrator (MemoryArbitrator.cpp lines 75-131) -/

/-- Capacity view of a memory pool: the current capacity grant and the hard
maxCapacity ceiling. -/
structure PoolCapacity where
  capacity : Nat
  maxCapacity : Nat
deriving DecidableEq, Repr

/-- Modelled from the spec: MemoryPool::grow adjusts the capacity grant
(section 4.1 of the spec), and the pool invariant
0 ≤ currentBytes ≤ reservedBytes ≤ capacity ≤ maxCapacity caps the grant at
the maxCapacity hard ceiling.  The implementation lives in
velox/common/memory/Memory.cpp, which is not among the sources. -/
def poolGrow (p : PoolCapacity) (bytes : Nat) : PoolCapacity :=
  { p with capacity := min (p.capacity + bytes) p.maxCapacity }

/-- NoopArbitrator::reserveMemory (lines 92-94): grow the pool by its own
maxCapacity, ignoring the requested size. -/
def noopReserveMemory (p : PoolCapacity) (_bytesToReserve : Nat) : PoolCapacity :=
  poolGrow p p.maxCapacity

/-- C4: for every pool and every requested size, the Noop arbitrator's
reserveMemory leaves the pool capacity exactly equal to its maxCapacity —
grown to the ceiling immediately and never beyond it. -/
theorem noop_reserve_memory_grows_to_max (p : PoolCapacity) (bytesToReserve : Nat) :
    (noopReserveMemory p bytesToReserve).capacity = p.maxCapacity ∧
    (noopReserveMemory p bytesToReserve).maxCapacity = p.maxCapacity := by
  unfold noopReserveMemory poolGrow
  refine ⟨?_, rfl⟩
  simp only
  exact Nat.min_eq_right (Nat.le_add_left _ _)

/-! ### SortingWriter (SortingWriter.cpp) -/

/-- Reclaimer statistics (MemoryReclaimer::Stats). -/
structure ReclaimerStats where
  numNonReclaimableAttempts : Nat
  reclaimExecTimeUs : Nat
  reclaimedBytes : Nat
  reclaimWaitTimeUs : Nat
deriving DecidableEq, Repr

/-- Lifecycle state of the writer (WriterBase state machine). -/
inductive WriterState where
  | init
  | running
  | closed
  | aborted
deriving DecidableEq, Repr

/-- Byte accounting of the sort pool attached to the writer. -/
structure SortPool where
  currentBytes : Nat
  reservedBytes : Nat
  capacity : Nat
deriving DecidableEq, Repr

/-- State of a SortingWriter: the canReclaim flag captured from the sort
buffer at construction, the lifecycle state, the sort pool accounting, and
the number of rows buffered in the sort buffer row container. -/
structure SortingWriterModel where
  canReclaimFlag : Bool
  state : WriterState
  sortPool : SortPool
  bufferRows : Nat
deriving DecidableEq, Repr

/-- SortingWriter::canReclaim (lines 66-68): returns the flag captured from
the sort buffer canSpill at construction. -/
def SortingWriterModel.canReclaim (w : SortingWriterModel) : Bool :=
  w.canReclaimFlag

/-- SortingWriter::MemoryReclaimer::reclaimableBytes (lines 104-115): report
0 bytes and false when the writer cannot reclaim, otherwise report the sort
pool currentBytes and true. -/
def writerReclaimableBytes (w : SortingWriterModel) : Bool × Nat :=
  if !w.canReclaim then (false, 0)
  else (true, w.sortPool.currentBytes)

/-- Modelled from the spec: the running branch of SortingWriter::reclaim
spills the sort buffer (clearing the row container and freeing its bytes),
releases the unused reservation of the sort pool, and shrinks the pool
capacity by up to the target (all free capacity when the target is 0);
MemoryPool release and shrink live in velox/common/memory/Memory.cpp, which
is not among the sources. -/
def writerRunningReclaim (w : SortingWriterModel) (targetBytes : Nat) :
    Nat × SortingWriterModel :=
  let spilled : SortPool := { w.sortPool with currentBytes := 0 }
  let released : SortPool := { spilled with reservedBytes := spilled.currentBytes }
  let freeCapacity := released.capacity - released.reservedBytes
  let freed := if targetBytes = 0 then freeCapacity else min targetBytes freeCapacity
  (freed,
    { w with
        sortPool := { released with capacity := released.capacity - freed },
        bufferRows := 0 })

/-- SortingWriter::reclaim (lines 70-97): return 0 untouched when the writer
cannot reclaim; when not running, log, bump numNonReclaimableAttempts and
return 0; otherwise run the spill-release-shrink closure under
MemoryReclaimer::run, which adds the measured execution time (a model
parameter here) and the freed bytes to the stats. -/
def writerReclaim (w : SortingWriterModel) (targetBytes : Nat)
    (stats : ReclaimerStats) (execTimeUs : Nat) :
    Nat × SortingWriterModel × ReclaimerStats :=
  if !w.canReclaim then
    (0, w, stats)
  else if w.state ≠ WriterState.running then
    (0, w,
      { stats with numNonReclaimableAttempts := stats.numNonReclaimableAttempts + 1 })
  else
    let run := writerRunningReclaim w targetBytes
    (run.1, run.2,
      { stats with
          reclaimExecTimeUs := stats.reclaimExecTimeUs + execTimeUs,
          reclaimedBytes := stats.reclaimedBytes + run.1 })

/-- C2 (amended): the reclaimable flag reported by the sort writer reclaimer
equals canReclaim() alone, for every writer state and row count; the reported
byte count is the sort pool currentBytes when the flag is true and 0
otherwise. -/
theorem writer_reclaimable_bytes_eq_can_reclaim (w : SortingWriterModel) :
    writerReclaimableBytes w =
      (w.canReclaim, if w.canReclaim then w.sortPool.currentBytes else 0) := by
  unfold writerReclaimableBytes
  cases hcr : w.canReclaim <;> simp [hcr]

/-- A spill-enabled writer that is closed with an empty buffer. -/
def closedWriter : SortingWriterModel :=
  { canReclaimFlag := true, state := WriterState.closed,
    sortPool := { currentBytes := 7, reservedBytes := 8, capacity := 16 },
    bufferRows := 0 }

/-- C2 counterexample: for a spill-enabled writer that is closed and holds no
rows, the reclaimer still reports reclaimable (and the pool currentBytes),
refuting reclaimable == canReclaim() && state == Running && rows > 0. -/
theorem writer_reclaimable_ignores_state_and_rows :
    closedWriter.canReclaim = true ∧
    closedWriter.state ≠ WriterState.running ∧
    closedWriter.bufferRows = 0 ∧
    writerReclaimableBytes closedWriter = (true, 7) ∧
    ¬ ((writerReclaimableBytes closedWriter).1 =
        (closedWriter.canReclaim &&
          decide (closedWriter.state = WriterState.running) &&
          decide (0 < closedWriter.bufferRows))) := by
  refine ⟨by decide, by decide, by decide, by decide, by decide⟩

/-- C6: when a reclaim request reaches a spill-enabled sort writer that is
not running, it returns 0 bytes, leaves the writer (and hence its sort
buffer and pool) untouched, and changes the stats only by incrementing
numNonReclaimableAttempts by exactly one. -/
theorem writer_reclaim_nonrunning_noop (w : SortingWriterModel)
    (targetBytes : Nat) (stats : ReclaimerStats) (execTimeUs : Nat)
    (hcr : w.canReclaim = true) (hst : w.state ≠ WriterState.running) :
    writerReclaim w targetBytes stats execTimeUs =
      (0, w,
        { stats with
            numNonReclaimableAttempts := stats.numNonReclaimableAttempts + 1 }) := by
  unfold writerReclaim
  rw [hcr]
  simp [hst]

/-- Reclaimer stats record used by the writer witnesses. -/
def witnessStats : ReclaimerStats :=
  { numNonReclaimableAttempts := 2, reclaimExecTimeUs := 10,
    reclaimedBytes := 100, reclaimWaitTimeUs := 1 }

/-- Witness for C6: a closed spill-enabled writer, target 64. -/
theorem writer_reclaim_nonrunning_noop_witness :
    (closedWriter.canReclaim = true ∧ closedWriter.state ≠ WriterState.running) ∧
    writerReclaim closedWriter 64 witnessStats 5 =
      (0, closedWriter,
        { witnessStats with
            numNonReclaimableAttempts := witnessStats.numNonReclaimableAttempts + 1 }) :=
  ⟨⟨by decide, by decide⟩,
    writer_reclaim_nonrunning_noop closedWriter 64 witnessStats 5
      (by decide) (by decide)⟩

/-- C10: if the writer was built from a sort buffer that cannot spill, a
reclaim request returns 0 and leaves the writer and the stats completely
unchanged, for every state and target; and in every case the
numNonReclaimableAttempts counter is bumped exactly when the writer is
spill-enabled and not running. -/
theorem writer_reclaim_cannot_reclaim_untouched (w : SortingWriterModel)
    (targetBytes : Nat) (stats : ReclaimerStats) (execTimeUs : Nat)
    (hcr : w.canReclaim = false) :
    writerReclaim w targetBytes stats execTimeUs = (0, w, stats) ∧
    (∀ v : SortingWriterModel,
      (writerReclaim v targetBytes stats execTimeUs).2.2.numNonReclaimableAttempts =
        if v.canReclaim = true ∧ v.state ≠ WriterState.running then
          stats.numNonReclaimableAttempts + 1
        else stats.numNonReclaimableAttempts) := by
  constructor
  · unfold writerReclaim
    rw [hcr]
    simp
  · intro v
    unfold writerReclaim
    cases hv : v.canReclaim with
    | false => simp [hv]
    | true =>
      by_cases hst : v.state = WriterState.running
      · simp [hv, hst]
      · simp [hv, hst]

/-- A non-spillable writer in the running state. -/
def nonSpillWriter : SortingWriterModel :=
  { canReclaimFlag := false, state := WriterState.running,
    sortPool := { currentBytes := 9, reservedBytes := 12, capacity := 20 },
    bufferRows := 4 }

/-- Witness for C10: a running writer without spill support, target 32. -/
theorem writer_reclaim_cannot_reclaim_untouched_witness :
    nonSpillWriter.canReclaim = false ∧
    (writerReclaim nonSpillWriter 32 witnessStats 5 = (0, nonSpillWriter, witnessStats) ∧
      (∀ v : SortingWriterModel,
        (writerReclaim v 32 witnessStats 5).2.2.numNonReclaimableAttempts =
          if v.canReclaim = true ∧ v.state ≠ WriterState.running then
            witnessStats.numNonReclaimableAttempts + 1
          else witnessStats.numNonReclaimableAttempts)) :=
  ⟨by decide,
    writer_reclaim_cannot_reclaim_untouched nonSpillWriter 32 witnessStats 5 (by decide)⟩

/-! ### SortBuffer (SortBuffer.cpp) -/

/-- Truncation to 64 bits, the width of the uint64_t values involved. -/
def w64 (n : Nat) : Nat := n % 2 ^ 64

/-- The twang_mix64 bit mixer, which is what the folly hasher applied to the
uint64_t spill test counter computes: a chain of 64-bit complement, shifts,
additions and xors. -/
def twangMix64 (key : Nat) : Nat :=
  let k0 := w64 key
  let k1 := w64 (2 ^ 64 - 1 - k0 + w64 (k0 * 2 ^ 21))
  let k2 := k1 ^^^ (k1 / 2 ^ 24)
  let k3 := w64 (k2 + w64 (k2 * 2 ^ 3) + w64 (k2 * 2 ^ 8))
  let k4 := k3 ^^^ (k3 / 2 ^ 14)
  let k5 := w64 (k4 + w64 (k4 * 2 ^ 2) + w64 (k4 * 2 ^ 4))
  let k6 := k5 ^^^ (k5 / 2 ^ 28)
  w64 (k6 + w64 (k6 * 2 ^ 31))

/-- The test-only spill injection of SortBuffer::ensureInputFits (lines
216-222), reached when spilling is configured and the row container is
non-empty: when testSpillPct is nonzero, pre-increment the spill test
counter, hash it, and spill when the hash modulo 100 is at most testSpillPct.
Returns whether the injection spills and the updated counter. -/
def testSpillInjection (numRows testSpillPct spillTestCounter : Nat) : Bool × Nat :=
  if 0 < numRows ∧ testSpillPct ≠ 0 then
    let i := spillTestCounter + 1
    (decide (twangMix64 i % 100 ≤ testSpillPct), i)
  else
    (false, spillTestCounter)

/-- C5 (amended): with spill configured, a non-empty container and a nonzero
testSpillPct, the injection increments the per-buffer counter and spills
exactly when hash(i) % 100 is less than or equal to testSpillPct (the source
comparison is inclusive, not strict). -/
theorem test_spill_injection_spec (numRows testSpillPct spillTestCounter : Nat)
    (hrows : 0 < numRows) (hpct : 0 < testSpillPct) :
    testSpillInjection numRows testSpillPct spillTestCounter =
      (decide (twangMix64 (spillTestCounter + 1) % 100 ≤ testSpillPct),
        spillTestCounter + 1) := by
  unfold testSpillInjection
  rw [if_pos ⟨hrows, by omega⟩]

/-- Witness for C5 at one row, pct 50, counter 0. -/
theorem test_spill_injection_spec_witness :
    (0 < 1 ∧ 0 < 50) ∧
    testSpillInjection 1 50 0 =
      (decide (twangMix64 1 % 100 ≤ 50), 1) :=
  ⟨⟨by decide, by decide⟩, test_spill_injection_spec 1 50 0 (by decide) (by decide)⟩

/-- C5 counterexample: the hash of counter value 1 is 42 modulo 100, so with
testSpillPct = 42 the source spills (inclusive comparison) while the claimed
strict comparison hash % 100 < testSpillPct does not hold. -/
theorem test_spill_injection_boundary :
    twangMix64 1 % 100 = 42 ∧
    (testSpillInjection 1 42 0).1 = true ∧
    ¬ (twangMix64 1 % 100 < 42) := by
  refine ⟨by decide, by decide, by decide⟩

/-- Output phase state of a SortBuffer after noMoreInput: total input rows,
rows already emitted, and the configured output batch size. -/
structure SortBufferOutputState where
  numInputRows : Nat
  numOutputRows : Nat
  outputBatchSize : Nat
deriving DecidableEq, Repr

/-- SortBuffer::getOutput (lines 153-167) at the row-accounting level: after
the VELOX_CHECK that noMoreInput was called, return null once all input rows
have been emitted; otherwise prepareOutput sizes the batch as the minimum of
the remaining rows and outputBatchSize, and both the in-memory and the spill
path then emit exactly that many rows.  Returns the emitted batch size
(none for a null batch) and the updated state. -/
def getOutput (s : SortBufferOutputState) : Option Nat × SortBufferOutputState :=
  if s.numOutputRows = s.numInputRows then
    (none, s)
  else
    let batchSize := min (s.numInputRows - s.numOutputRows) s.outputBatchSize
    (some batchSize, { s with numOutputRows := s.numOutputRows + batchSize })

/-- Repeated calls to getOutput, keeping only the final state. -/
def runOutput : Nat → SortBufferOutputState → SortBufferOutputState
  | 0, s => s
  | k + 1, s => runOutput k (getOutput s).2

lemma getOutput_preserves (s : SortBufferOutputState) :
    (getOutput s).2.numInputRows = s.numInputRows ∧
    (getOutput s).2.outputBatchSize = s.outputBatchSize := by
  unfold getOutput
  by_cases h : s.numOutputRows = s.numInputRows <;> simp [h]

lemma runOutput_exhausts :
    ∀ (d : Nat) (s : SortBufferOutputState), 0 < s.outputBatchSize →
      s.numOutputRows ≤ s.numInputRows → s.numInputRows ≤ s.numOutputRows + d →
      (runOutput d s).numOutputRows = s.numInputRows ∧
      (runOutput d s).numInputRows = s.numInputRows := by
  intro d
  induction d with
  | zero =>
    intro s _ hle hge
    have : s.numOutputRows = s.numInputRows := by omega
    exact ⟨this, rfl⟩
  | succ k ih =>
    intro s hbs hle hge
    by_cases hdone : s.numOutputRows = s.numInputRows
    · have hstep : getOutput s = (none, s) := by unfold getOutput; rw [if_pos hdone]
      have := ih s hbs hle (by omega)
      simpa [runOutput, hstep] using this
    · have hlt : s.numOutputRows < s.numInputRows := by omega
      set t := { s with numOutputRows :=
        s.numOutputRows + min (s.numInputRows - s.numOutputRows) s.outputBatchSize }
        with ht
      have hstep : (getOutput s).2 = t := by
        unfold getOutput; rw [if_neg hdone]
      have hbatch : 0 < min (s.numInputRows - s.numOutputRows) s.outputBatchSize := by
        omega
      have hrec := ih t (by simp [ht, hbs]) (by simp [ht]; omega) (by simp [ht]; omega)
      simp only [runOutput, hstep]
      simpa [ht] using hrec

/-- C8: during the output phase, getOutput returns a null batch exactly when
all input rows have been emitted; a non-null batch advances the emitted-row
count by its size, never past numInputRows and never by more than
outputBatchSize; after enough calls exactly numInputRows rows have been
emitted; and at that point getOutput returns null and leaves the state
unchanged, so every subsequent call also returns null. -/
theorem sort_buffer_get_output_spec (s : SortBufferOutputState)
    (hbs : 0 < s.outputBatchSize) (hle : s.numOutputRows ≤ s.numInputRows) :
    ((getOutput s).1 = none ↔ s.numOutputRows = s.numInputRows) ∧
    (getOutput s).2.numOutputRows = s.numOutputRows + (getOutput s).1.getD 0 ∧
    (getOutput s).1.getD 0 ≤ s.outputBatchSize ∧
    (getOutput s).2.numOutputRows ≤ s.numInputRows ∧
    (getOutput s).2.numInputRows = s.numInputRows ∧
    (runOutput (s.numInputRows - s.numOutputRows) s).numOutputRows = s.numInputRows ∧
    getOutput (runOutput (s.numInputRows - s.numOutputRows) s) =
      (none, runOutput (s.numInputRows - s.numOutputRows) s) := by
  have hrun := runOutput_exhausts (s.numInputRows - s.numOutputRows) s hbs hle (by omega)
  refine ⟨?_, ?_, ?_, ?_, (getOutput_preserves s).1, hrun.1, ?_⟩
  · unfold getOutput
    by_cases h : s.numOutputRows = s.numInputRows <;> simp [h]
  · unfold getOutput
    by_cases h : s.numOutputRows = s.numInputRows <;> simp [h]
  · unfold getOutput
    by_cases h : s.numOutputRows = s.numInputRows <;> simp [h]
  · unfold getOutput
    by_cases h : s.numOutputRows = s.numInputRows
    · simp [h]
    · simp [h]; omega
  · unfold getOutput
    rw [if_pos (hrun.1.trans hrun.2.symm)]

/-- Output state right after noMoreInput: five input rows, none emitted,
batch size two. -/
def outputStart : SortBufferOutputState :=
  { numInputRows := 5, numOutputRows := 0, outputBatchSize := 2 }

/-- Witness for C8 at the concrete start state. -/
theorem sort_buffer_get_output_spec_witness :
    (0 < outputStart.outputBatchSize ∧
      outputStart.numOutputRows ≤ outputStart.numInputRows) ∧
    (((getOutput outputStart).1 = none ↔
        outputStart.numOutputRows = outputStart.numInputRows) ∧
      (getOutput outputStart).2.numOutputRows =
        outputStart.numOutputRows + (getOutput outputStart).1.getD 0 ∧
      (getOutput outputStart).1.getD 0 ≤ outputStart.outputBatchSize ∧
      (getOutput outputStart).2.numOutputRows ≤ outputStart.numInputRows ∧
      (getOutput outputStart).2.numInputRows = outputStart.numInputRows ∧
      (runOutput (outputStart.numInputRows - outputStart.numOutputRows)
          outputStart).numOutputRows = outputStart.numInputRows ∧
      getOutput (runOutput (outputStart.numInputRows - outputStart.numOutputRows)
          outputStart) =
        (none, runOutput (outputStart.numInputRows - outputStart.numOutputRows)
          outputStart)) :=
  ⟨⟨by decide, by decide⟩, sort_buffer_get_output_spec outputStart (by decide) (by decide)⟩

end Velox
